import Mathlib

/-!
Verification development for the image-composition pipeline in
`wpreddit/download.py` (functions `download_image`, `resize_image`,
`set_image_title`, `remove_tags`, `pure_pil_alpha_to_color_v2`).

Images are modelled as pixel grids (width, height, a pixel function and a
mode tag).  Python strings are modelled as `String`/`List Char`;
Python's true division produces exact values on the integers-divided-by-two
expressions that occur here, so coordinates are modelled as rationals.
External PIL primitives (text rasterisation, resampling, the default draw
ink) are modelled as parameters or from their documented behaviour; each
such definition carries a comment saying so.
-/

namespace WPReddit

/-- Pixel mode tag of a PIL image (`img.mode`); only the two modes the
program inspects are distinguished. -/
inductive PixMode where
  | RGB
  | RGBA
deriving DecidableEq

/-- An 8-bit RGB color triple, as used for the flattening background. -/
@[ext]
structure Color3 where
  r : ℕ
  g : ℕ
  b : ℕ
deriving DecidableEq

/-- An RGBA pixel value; for RGB-mode images the alpha component is kept
at 255 by convention. -/
@[ext]
structure Color4 where
  r : ℕ
  g : ℕ
  b : ℕ
  a : ℕ
deriving DecidableEq

/-- A raster image: mode tag, dimensions, and a total pixel function
(values outside the width/height range are irrelevant). -/
structure Image where
  mode : PixMode
  width : ℕ
  height : ℕ
  px : ℕ → ℕ → Color4

instance : Inhabited Image :=
  ⟨{ mode := PixMode.RGB, width := 0, height := 0, px := fun _ _ => ⟨0, 0, 0, 255⟩ }⟩

/-! ### String utilities (Python `in`, `strip`, `lower`, `replace`) -/

/-- Boolean test that `pat` is a prefix of `s` (over character lists). -/
def isPrefixB : List Char → List Char → Bool
  | [], _ => true
  | _ :: _, [] => false
  | p :: ps, c :: cs => p == c && isPrefixB ps cs

/-- Boolean test that `pat` occurs as a contiguous substring of `s`;
this is Python's `pat in s` for strings. -/
def hasSub (pat : List Char) : List Char → Bool
  | [] => isPrefixB pat []
  | c :: cs => isPrefixB pat (c :: cs) || hasSub pat cs

/-- Python `pat in s` on `String`s. -/
def containsStr (s pat : String) : Bool :=
  hasSub pat.toList s.toList

/-- Python's `str.strip()` whitespace set: exactly the code points the
runtime strips (`chr(c).strip() == ''`) — 0x09-0x0D, the separators
0x1C-0x1F, space, NEL 0x85, NBSP 0xA0, and the Unicode space separators
0x1680, 0x2000-0x200A, 0x2028, 0x2029, 0x202F, 0x205F, 0x3000. -/
def pyIsSpace (c : Char) : Bool :=
  [32, 9, 10, 11, 12, 13, 28, 29, 30, 31, 133, 160, 5760,
    8192, 8193, 8194, 8195, 8196, 8197, 8198, 8199, 8200, 8201, 8202,
    8232, 8233, 8239, 8287, 12288].contains c.toNat

/-- Python `str.strip()` on a character list: drop whitespace from both
ends. -/
def pyStrip (l : List Char) : List Char :=
  ((l.dropWhile pyIsSpace).reverse.dropWhile pyIsSpace).reverse

/-! ### `remove_tags` (download.py lines 103-105)

`re.sub(' +', ' ', re.sub("[\[\(\<].*?[\]\)\>]", "", str)).strip()` -/

/-- Opening characters of the tag regex character class `[\[\(\<]`. -/
def isOpener (c : Char) : Bool :=
  c == '[' || c == '(' || c == '<'

/-- Closing characters of the tag regex character class `[\]\)\>]`. -/
def isCloser (c : Char) : Bool :=
  c == ']' || c == ')' || c == '>'

/-- Scan for the non-greedy close of a tag: the regex `.*?[\]\)\>]`
matches up to the first closer, and `.` cannot cross a newline, so a
newline (or the end of the string) before any closer means no match.
Returns the remainder of the string after the closing character. -/
def findClose : List Char → Option (List Char)
  | [] => none
  | c :: cs =>
    if isCloser c then some cs
    else if c == '\n' then none
    else findClose cs

/-- One pass of `re.sub("[\[\(\<].*?[\]\)\>]", "", s)` with explicit fuel
(each match consumes at least two characters, so `l.length` fuel always
suffices; the fuel-0 fallback is never reached from `stripTags`):
leftmost-first scanning; at an opener with a reachable closer the whole
match is dropped and scanning resumes after it, otherwise the character is
kept. -/
def stripTagsF : ℕ → List Char → List Char
  | 0, l => l
  | _ + 1, [] => []
  | fuel + 1, c :: cs =>
    if isOpener c then
      match findClose cs with
      | some rest => stripTagsF fuel rest
      | none => c :: stripTagsF fuel cs
    else c :: stripTagsF fuel cs

/-- The tag-removal regex pass, with enough fuel for the whole input. -/
def stripTags (l : List Char) : List Char :=
  stripTagsF l.length l

/-- `re.sub(' +', ' ', s)`: collapse each maximal run of space characters
to a single space. -/
def collapseSpaces : List Char → List Char
  | [] => []
  | [c] => [c]
  | c :: d :: rest =>
    if c == ' ' && d == ' ' then collapseSpaces (d :: rest)
    else c :: collapseSpaces (d :: rest)

/-- Embedding of `remove_tags` (download.py): strip bracketed tags, then
collapse space runs, then strip surrounding whitespace. -/
def remove_tags (s : String) : String :=
  String.mk (pyStrip (collapseSpaces (stripTags s.toList)))

/-! ### Gravity normalization and placement (download.py lines 53-75)

`gravity = gravity.lower().replace(' ', '').strip()` followed by the
`if "left" in gravity ... elif "right" in gravity ... else center`
chains.  Python's `/` on the centering expressions is exact here (an
integer divided by two), so coordinates are rationals. -/

/-- Embedding of `gravity.lower().replace(' ', '').strip()`: lowercase,
remove space characters (only `' '`), then strip surrounding whitespace. -/
def normalizeGravity (g : String) : String :=
  String.mk (pyStrip ((g.toList.map Char.toLower).filter (fun c => !(c == ' '))))

/-- Horizontal anchor intents of the gravity descriptor. -/
inductive HAnchor where
  | left
  | center
  | right
deriving DecidableEq

/-- Vertical anchor intents of the gravity descriptor. -/
inductive VAnchor where
  | top
  | center
  | bottom
deriving DecidableEq

/-- Horizontal anchor chosen by the `if "left" in gravity` /
`elif "right" in gravity` chain (on the already-normalized string). -/
def parseH (g : String) : HAnchor :=
  if containsStr g "left" then HAnchor.left
  else if containsStr g "right" then HAnchor.right
  else HAnchor.center

/-- Vertical anchor chosen by the `if "top" in gravity` /
`elif "bottom" in gravity` chain (on the already-normalized string). -/
def parseV (g : String) : VAnchor :=
  if containsStr g "top" then VAnchor.top
  else if containsStr g "bottom" then VAnchor.bottom
  else VAnchor.center

/-- The `title_top_left_x` computation of `set_image_title`, literally as
the source's if/elif/else chain: `textX` is `font.getsize(title)[0]`,
`imgW` is `ret_img.size[0]`, `padX` is `padding[0]`. -/
def titleTopLeftX (g : String) (textX imgW : ℕ) (padX : ℤ) : ℚ :=
  if containsStr g "left" then (padX : ℚ)
  else if containsStr g "right" then (imgW : ℚ) - (textX : ℚ) - (padX : ℚ)
  else ((imgW : ℚ) - (textX : ℚ)) / 2

/-- The `title_top_left_y` computation of `set_image_title`, literally as
the source's if/elif/else chain. -/
def titleTopLeftY (g : String) (textY imgH : ℕ) (padY : ℤ) : ℚ :=
  if containsStr g "top" then (padY : ℚ)
  else if containsStr g "bottom" then (imgH : ℚ) - (textY : ℚ) - (padY : ℚ)
  else ((imgH : ℚ) - (textY : ℚ)) / 2

/-- Placement formula per horizontal anchor (the spec's anchor table):
`left → px`, `right → cw - gw - px`, `center → (cw - gw) / 2`. -/
def resolveX : HAnchor → ℕ → ℕ → ℤ → ℚ
  | HAnchor.left, _, _, px => (px : ℚ)
  | HAnchor.right, gw, cw, px => (cw : ℚ) - (gw : ℚ) - (px : ℚ)
  | HAnchor.center, gw, cw, _ => ((cw : ℚ) - (gw : ℚ)) / 2

/-- Placement formula per vertical anchor (the spec's anchor table):
`top → py`, `bottom → ch - gh - py`, `center → (ch - gh) / 2`. -/
def resolveY : VAnchor → ℕ → ℕ → ℤ → ℚ
  | VAnchor.top, _, _, py => (py : ℚ)
  | VAnchor.bottom, gh, ch, py => (ch : ℚ) - (gh : ℚ) - (py : ℚ)
  | VAnchor.center, gh, ch, _ => ((ch : ℚ) - (gh : ℚ)) / 2

/-! ### Text drawing model

`ImageFont.truetype(...)` and the rasteriser live in PIL, outside the
repository; they are abstracted as a font environment: per-size metrics
giving `getsize`, a per-character advance and a per-character coverage
mask.  `ImageDraw.text` on an RGB image paints the covered pixels with the
ink's RGB components (the alpha component of an ink is ignored on an RGB
target), clipped to the image bounds. -/

/-- Metrics/rasteriser of one loaded font at one size: `getsize` is PIL's
string measurement, `charWidth` the pen advance per character, and
`charMask dx dy` the glyph coverage relative to the pen position. -/
structure FontMetrics where
  getsize : String → ℕ × ℕ
  charWidth : Char → ℕ
  charMask : Char → ℚ → ℚ → Bool

/-- A font environment maps a font size to the metrics of the bundled
font loaded at that size (`ImageFont.truetype(font=..., size=fontsize)`). -/
def FontEnv : Type := ℕ → FontMetrics

/-- Draw one glyph at pen position `pos`: pixels inside the image bounds
covered by the glyph mask are overwritten with the ink's RGB components
(ink alpha is ignored on an RGB-mode target, so the stored alpha stays
255). -/
def drawChar (font : FontMetrics) (img : Image) (pos : ℚ × ℚ) (c : Char)
    (fill : Color4) : Image :=
  { img with px := fun u v =>
      if u < img.width ∧ v < img.height ∧
          font.charMask c ((u : ℚ) - pos.1) ((v : ℚ) - pos.2) = true then
        ⟨fill.r, fill.g, fill.b, 255⟩
      else img.px u v }

/-- Draw a list of glyphs left to right, advancing the pen by each
character's width. -/
def drawChars (font : FontMetrics) (img : Image) (pos : ℚ × ℚ)
    (fill : Color4) : List Char → Image
  | [] => img
  | c :: cs =>
    drawChars font (drawChar font img pos c fill)
      (pos.1 + (font.charWidth c : ℚ), pos.2) fill cs

/-- Embedding of `draw.text((x, y), txt, font=font, fill=fill)` on the
image being drawn on. -/
def drawText (font : FontMetrics) (img : Image) (pos : ℚ × ℚ)
    (txt : String) (fill : Color4) : Image :=
  drawChars font img pos fill txt.toList

/-- Coverage of pixel `(u, v)` by the glyphs of a character list drawn at
pen position `pos`. -/
def coversChars (font : FontMetrics) (pos : ℚ × ℚ) (u v : ℕ) :
    List Char → Bool
  | [] => false
  | c :: cs =>
    font.charMask c ((u : ℚ) - pos.1) ((v : ℚ) - pos.2) ||
      coversChars font (pos.1 + (font.charWidth c : ℚ), pos.2) u v cs

/-- Coverage of pixel `(u, v)` by a string drawn at `pos`. -/
def coversText (font : FontMetrics) (pos : ℚ × ℚ) (txt : String)
    (u v : ℕ) : Bool :=
  coversChars font pos u v txt.toList

/-- Fill passed to the shadow pass: `fill=(0, 0, 0, 127)`. -/
def shadowFill : Color4 := ⟨0, 0, 0, 127⟩

/-- Ink used when `draw.text` is called with no fill: PIL's default draw
ink 0, i.e. opaque black (external PIL behaviour, as the spec states). -/
def defaultInk : Color4 := ⟨0, 0, 0, 255⟩

/-! ### `set_image_title` (download.py lines 48-80) -/

/-- Embedding of `set_image_title(img, title, gravity, padding, fontsize)`
as a value-level function: sanitize the title, normalize the gravity, copy
the input, measure the title, resolve the top-left point, draw the shadow
at `(+2, +2)` and then the primary text. -/
def set_image_title (env : FontEnv) (img : Image) (title gravity : String)
    (padding : ℤ × ℤ) (fontsize : ℕ) : Image :=
  let t := remove_tags title
  let g := normalizeGravity gravity
  let retImg := img
  let font := env fontsize
  let textX := (font.getsize t).1
  let textY := (font.getsize t).2
  let x := titleTopLeftX g textX retImg.width padding.1
  let y := titleTopLeftY g textY retImg.height padding.2
  let shadowed := drawText font retImg (x + 2, y + 2) t shadowFill
  drawText font shadowed (x, y) t defaultInk

/-! ### Mutable-buffer view of `set_image_title`

The Python function works on heap objects: `ret_img = img.copy()`
allocates a fresh buffer and the two `draw.text` calls mutate that buffer
in place.  A store of image buffers makes the mutation explicit so that
non-mutation of the argument is a real statement. -/

/-- A heap of image buffers: `size` counts the allocated buffers
`0, ..., size - 1`. -/
structure Store where
  size : ℕ
  buf : ℕ → Image

/-- Allocate a fresh buffer holding `img` (models `img.copy()`), returning
the new store and the new buffer's index. -/
def Store.alloc (s : Store) (img : Image) : Store × ℕ :=
  ({ size := s.size + 1,
     buf := fun k => if k = s.size then img else s.buf k }, s.size)

/-- Overwrite buffer `j` in place (models a mutating `draw.text` call). -/
def Store.write (s : Store) (j : ℕ) (img : Image) : Store :=
  { s with buf := fun k => if k = j then img else s.buf k }

/-- Store-level embedding of `set_image_title`: the argument is buffer
`i`; `ret_img = img.copy()` allocates buffer `j`; both `draw.text` calls
mutate buffer `j`; the function returns `j`. -/
def set_image_titleS (env : FontEnv) (s : Store) (i : ℕ)
    (title gravity : String) (padding : ℤ × ℤ) (fontsize : ℕ) :
    Store × ℕ :=
  let t := remove_tags title
  let g := normalizeGravity gravity
  let c := s.alloc (s.buf i)
  let s1 := c.1
  let j := c.2
  let font := env fontsize
  let textX := (font.getsize t).1
  let textY := (font.getsize t).2
  let x := titleTopLeftX g textX (s1.buf j).width padding.1
  let y := titleTopLeftY g textY (s1.buf j).height padding.2
  let s2 := s1.write j (drawText font (s1.buf j) (x + 2, y + 2) t shadowFill)
  let s3 := s2.write j (drawText font (s2.buf j) (x, y) t defaultInk)
  (s3, j)

/-! ### `pure_pil_alpha_to_color_v2` (download.py lines 108-117)

The function allocates `Image.new('RGB', image.size, color)` and pastes
the source over it with the alpha channel as mask.  `Image.paste` with an
`L` mask is external PIL code; its per-pixel blend is
`round(background * (1 - a/255) + source * (a/255))` per channel, as the
spec records. -/

/-- Per-channel alpha blend of PIL's masked paste:
`round((bg * (255 - a) + src * a) / 255)`. -/
def blendChan (bg src a : ℕ) : ℕ :=
  (round (((bg : ℚ) * (255 - (a : ℚ)) + (src : ℚ) * (a : ℚ)) / 255)).toNat

/-- The default background of `pure_pil_alpha_to_color_v2`
(`color=(255, 255, 255)` in the source): opaque white. -/
def defaultFlattenColor : Color3 := ⟨255, 255, 255⟩

/-- Embedding of `pure_pil_alpha_to_color_v2(image, color)`: a fresh RGB
image of the same size holding the source composited over the solid
`color` background, weighted by the source's alpha channel. -/
def pure_pil_alpha_to_color_v2 (image : Image) (color : Color3) : Image :=
  { mode := PixMode.RGB,
    width := image.width,
    height := image.height,
    px := fun u v =>
      let p := image.px u v
      ⟨blendChan color.r p.r p.a, blendChan color.g p.g p.a,
        blendChan color.b p.b p.a, 255⟩ }

/-! ### `resize_image` (download.py lines 34-37)

`ImageOps.fit(img, (width, height), Image.ANTIALIAS)` is external Pillow
code (bleed 0, centering (0.5, 0.5)): it computes a centered crop box of
the target aspect ratio and resizes that box to exactly the target size.
The resampling filter is abstracted as a sampler parameter. -/

/-- A crop box in source coordinates, Pillow's `(left, top, right,
bottom)` form. -/
structure Box where
  left : ℚ
  top : ℚ
  right : ℚ
  bottom : ℚ
deriving DecidableEq

/-- The crop box Pillow's `ImageOps.fit` computes for source size
`(srcW, srcH)` and target size `(w, h)` with no bleed and default
centering `(0.5, 0.5)`. -/
def fitBox (srcW srcH w h : ℕ) : Box :=
  if (w : ℚ) / (h : ℚ) ≤ (srcW : ℚ) / (srcH : ℚ) then
    { left := ((srcW : ℚ) - (w : ℚ) / (h : ℚ) * (srcH : ℚ)) / 2,
      top := 0,
      right := ((srcW : ℚ) - (w : ℚ) / (h : ℚ) * (srcH : ℚ)) / 2
        + (w : ℚ) / (h : ℚ) * (srcH : ℚ),
      bottom := (srcH : ℚ) }
  else
    { left := 0,
      top := ((srcH : ℚ) - (srcW : ℚ) / ((w : ℚ) / (h : ℚ))) / 2,
      right := (srcW : ℚ),
      bottom := ((srcH : ℚ) - (srcW : ℚ) / ((w : ℚ) / (h : ℚ))) / 2
        + (srcW : ℚ) / ((w : ℚ) / (h : ℚ)) }

/-- A resampling filter: given the source, a crop box and the target
size, it produces each target pixel (abstracts `Image.ANTIALIAS`). -/
def Sampler : Type := Image → Box → ℕ → ℕ → ℕ → ℕ → Color4

/-- The `image.resize(size, method, box=crop)` step: an image of exactly
the requested size whose pixels come from the filter. -/
def imageResizeBox (sample : Sampler) (img : Image) (box : Box)
    (w h : ℕ) : Image :=
  { mode := img.mode, width := w, height := h,
    px := fun u v => sample img box w h u v }

/-- Embedding of `resize_image(img, width, height)` =
`ImageOps.fit(img, (width, height), Image.ANTIALIAS)`. -/
def resize_image (sample : Sampler) (img : Image) (width height : ℕ) :
    Image :=
  imageResizeBox sample img (fitBox img.width img.height width height)
    width height

/-! ### `download_image` (download.py lines 12-27)

The network fetch (`requests.get`) and decoder (`Image.open`) are
external; they appear as an environment.  `requests` failures and PIL
decode failures both raise `IOError` subclasses, which the `except
IOError` arm turns into `sys.exit(1)` after logging. -/

/-- The raw byte stream `r.raw` handed to the decoder. -/
def RawBytes : Type := List ℕ

/-- An `IOError` value (message only). -/
structure IOErr where
  msg : String

/-- Result of one `download_image` call: a returned image, a process
termination via `sys.exit(code)`, or an exception propagating to the
caller (the code never produces the last one inside the `try` block's
`IOError` coverage). -/
inductive DownloadOutcome where
  | ok (img : Image)
  | exitProcess (code : ℕ)
  | raised (e : IOErr)

/-- True exactly when the outcome is an exception reaching the caller. -/
def DownloadOutcome.isRaised : DownloadOutcome → Bool
  | DownloadOutcome.raised _ => true
  | _ => false

/-- True exactly when the outcome is a returned image. -/
def DownloadOutcome.isImage : DownloadOutcome → Bool
  | DownloadOutcome.ok _ => true
  | _ => false

/-- One invocation's external world: the fetch result and the decoder. -/
structure DownloadEnv where
  fetch : Except IOErr RawBytes
  decode : RawBytes → Except IOErr Image

/-- Embedding of `Image.open(...).convert('RGB')` on a decoded image:
the mode becomes RGB and any alpha channel is discarded (PIL keeps the
RGB channels as-is and drops alpha; no compositing happens). -/
def Image.convertRGB (img : Image) : Image :=
  { img with mode := PixMode.RGB,
             px := fun u v => { img.px u v with a := 255 } }

/-- Embedding of `download_image(url)`: fetch, decode-and-convert, then
the (dead) `if img.mode == "RGBA"` flattening branch; an `IOError` from
fetch or decode is caught and turned into `sys.exit(1)`. -/
def download_image (env : DownloadEnv) : DownloadOutcome :=
  match env.fetch with
  | Except.error _ => DownloadOutcome.exitProcess 1
  | Except.ok raw =>
    match env.decode raw with
    | Except.error _ => DownloadOutcome.exitProcess 1
    | Except.ok decoded =>
      let img := decoded.convertRGB
      let img2 :=
        if img.mode = PixMode.RGBA then
          pure_pil_alpha_to_color_v2 img defaultFlattenColor
        else img
      DownloadOutcome.ok img2

/-! ### Claim-side definitions (for refinement comparisons only)

These two follow the wording of spec sentences, to be compared against
the source-derived definitions above. -/

/-- Scan for a closing bracket with no newline restriction; differs from
`findClose` exactly on newlines inside the bracketed span. -/
def findCloseAny : List Char → Option (List Char)
  | [] => none
  | c :: cs => if isCloser c then some cs else findCloseAny cs

/-- Tag pass following the claim's words (every bracketed substring is
deleted, newline or not), fuelled like `stripTagsF`. -/
def stripTagsSpecF : ℕ → List Char → List Char
  | 0, l => l
  | _ + 1, [] => []
  | fuel + 1, c :: cs =>
    if isOpener c then
      match findCloseAny cs with
      | some rest => stripTagsSpecF fuel rest
      | none => c :: stripTagsSpecF fuel cs
    else c :: stripTagsSpecF fuel cs

/-- Tag removal as the claim states it: delete each shortest bracketed
substring (no newline restriction), collapse space runs, strip. -/
def specRemoveTags (s : String) : String :=
  String.mk (pyStrip (collapseSpaces (stripTagsSpecF s.toList.length s.toList)))

/-- Gravity normalization as the claim states it: lowercase with all
whitespace removed. -/
def claimNormalize (g : String) : String :=
  String.mk ((g.toList.map Char.toLower).filter (fun c => !pyIsSpace c))

/-! ### Concrete fixtures for witness instantiations -/

/-- A concrete two-pixel RGBA test image: pixel (0,0) fully opaque,
pixel (1,0) fully transparent, both with RGB (10, 20, 30). -/
def imgAlphaTest : Image :=
  { mode := PixMode.RGBA, width := 2, height := 1,
    px := fun u _ => if u = 0 then ⟨10, 20, 30, 255⟩ else ⟨10, 20, 30, 0⟩ }

/-- A constant resampling filter, for concrete instantiations. -/
def constSampler : Sampler := fun _ _ _ _ _ _ => ⟨0, 0, 0, 255⟩

/-- A concrete 4x2 source image for the fitting witness. -/
def imgFitTest : Image :=
  { mode := PixMode.RGB, width := 4, height := 2,
    px := fun _ _ => ⟨1, 2, 3, 255⟩ }

/-- Concrete font metrics: every character is one pixel wide, measured
strings are (length, 1), and each glyph covers exactly the pen pixel. -/
def fontTest : FontMetrics :=
  { getsize := fun s => (s.length, 1),
    charWidth := fun _ => 1,
    charMask := fun _ dx dy => decide (dx = 0) && decide (dy = 0) }

/-- Concrete font environment: `fontTest` at every size. -/
def envTest : FontEnv := fun _ => fontTest

/-- A concrete 2x2 gray RGB image for the drawing witnesses. -/
def imgDrawTest : Image :=
  { mode := PixMode.RGB, width := 2, height := 2,
    px := fun _ _ => ⟨9, 9, 9, 255⟩ }

/-- A one-buffer store holding the drawing test image. -/
def storeTest : Store := { size := 1, buf := fun _ => imgDrawTest }

/-- A concrete 1x1 RGBA image: red, fully transparent. -/
def imgRedTransparent : Image :=
  { mode := PixMode.RGBA, width := 1, height := 1,
    px := fun _ _ => ⟨200, 0, 0, 0⟩ }

/-- A download environment whose network fetch raises `IOError`. -/
def envFetchFail : DownloadEnv :=
  { fetch := Except.error ⟨"connection error"⟩,
    decode := fun _ => Except.error ⟨"unreachable"⟩ }

/-- A download environment whose fetch succeeds but whose decode raises
`IOError` (bytes that are not an image). -/
def envDecodeFail : DownloadEnv :=
  { fetch := Except.ok [],
    decode := fun _ => Except.error ⟨"cannot identify image file"⟩ }

/-- A download environment that fetches and decodes successfully,
yielding the transparent red test image. -/
def envOkTest : DownloadEnv :=
  { fetch := Except.ok [],
    decode := fun _ => Except.ok imgRedTransparent }

/-! ### Supporting lemmas -/

/-- A list with no closing bracket has no regex match to its right. -/
theorem findClose_none : ∀ {cs : List Char},
    (∀ c ∈ cs, isCloser c = false) → findClose cs = none := by
  intro cs h
  induction cs with
  | nil => rfl
  | cons c cs ih =>
    have hc : isCloser c = false := h c (by simp)
    by_cases hn : c == '\n'
    · simp [findClose, hc, hn]
    · simp only [findClose, hc, hn]
      simp only [Bool.false_eq_true, if_false]
      exact ih (fun d hd => h d (by simp [hd]))

/-- The tag pass keeps a string that contains no closing bracket. -/
theorem stripTagsF_id : ∀ (fuel : ℕ) (l : List Char),
    (∀ c ∈ l, isCloser c = false) → stripTagsF fuel l = l := by
  intro fuel
  induction fuel with
  | zero => intro l _; rfl
  | succ n ih =>
    intro l h
    match l with
    | [] => rfl
    | c :: cs =>
      have hcs : ∀ d ∈ cs, isCloser d = false :=
        fun d hd => h d (List.mem_cons_of_mem _ hd)
      by_cases ho : isOpener c = true
      · simp [stripTagsF, ho, findClose_none hcs, ih cs hcs]
      · simp [stripTagsF, ho, ih cs hcs]

/-- Space-run collapsing keeps a string with no space character. -/
theorem collapseSpaces_id : ∀ (l : List Char),
    (∀ c ∈ l, (c == ' ') = false) → collapseSpaces l = l := by
  intro l h
  induction l with
  | nil => rfl
  | cons c cs ih =>
    cases cs with
    | nil => rfl
    | cons d rest =>
      have hc : (c == ' ') = false := h c (by simp)
      have hrest : ∀ e ∈ d :: rest, (e == ' ') = false :=
        fun e he => h e (List.mem_cons_of_mem _ he)
      simp [collapseSpaces, hc, ih hrest]

/-- `dropWhile` keeps a list none of whose elements satisfy the test. -/
theorem dropWhile_id {p : Char → Bool} : ∀ {l : List Char},
    (∀ c ∈ l, p c = false) → l.dropWhile p = l := by
  intro l h
  cases l with
  | nil => rfl
  | cons c cs => simp [List.dropWhile_cons, h c (by simp)]

/-- Python `strip` keeps a string with no whitespace character. -/
theorem pyStrip_id {l : List Char}
    (h : ∀ c ∈ l, pyIsSpace c = false) : pyStrip l = l := by
  unfold pyStrip
  rw [dropWhile_id h,
    dropWhile_id (fun c hc => h c (List.mem_reverse.mp hc)),
    List.reverse_reverse]

/-! ### Claims -/

/-- C1: for every glyph extent, canvas size and padding, the resolved
top-left coordinate follows the anchor formulas — left gives `px`, right
gives `cw - gw - px`, horizontal center gives `(cw - gw) / 2`; top gives
`py`, bottom gives `ch - gh - py`, vertical center gives `(ch - gh) / 2`;
"BOTTOM right" with extent (50, 20), canvas (200, 100), padding (10, 10)
resolves to (140, 70), "center" with extent (50, 20), canvas (200, 100),
padding (0, 0) resolves to (75, 40), "banana" resolves to center on both
axes, and no clamping is applied: the result can be negative or exceed
the canvas. -/
theorem C1_gravity_placement :
    (∀ (g : String) (gw cw : ℕ) (px : ℤ),
        titleTopLeftX g gw cw px = resolveX (parseH g) gw cw px)
  ∧ (∀ (g : String) (gh ch : ℕ) (py : ℤ),
        titleTopLeftY g gh ch py = resolveY (parseV g) gh ch py)
  ∧ (∀ (gw cw : ℕ) (px : ℤ), resolveX HAnchor.left gw cw px = (px : ℚ))
  ∧ (∀ (gw cw : ℕ) (px : ℤ),
        resolveX HAnchor.right gw cw px = (cw : ℚ) - (gw : ℚ) - (px : ℚ))
  ∧ (∀ (gw cw : ℕ) (px : ℤ),
        resolveX HAnchor.center gw cw px = ((cw : ℚ) - (gw : ℚ)) / 2)
  ∧ (∀ (gh ch : ℕ) (py : ℤ), resolveY VAnchor.top gh ch py = (py : ℚ))
  ∧ (∀ (gh ch : ℕ) (py : ℤ),
        resolveY VAnchor.bottom gh ch py = (ch : ℚ) - (gh : ℚ) - (py : ℚ))
  ∧ (∀ (gh ch : ℕ) (py : ℤ),
        resolveY VAnchor.center gh ch py = ((ch : ℚ) - (gh : ℚ)) / 2)
  ∧ titleTopLeftX (normalizeGravity "BOTTOM right") 50 200 10 = 140
  ∧ titleTopLeftY (normalizeGravity "BOTTOM right") 20 100 10 = 70
  ∧ titleTopLeftX (normalizeGravity "center") 50 200 0 = 75
  ∧ titleTopLeftY (normalizeGravity "center") 20 100 0 = 40
  ∧ parseH (normalizeGravity "banana") = HAnchor.center
  ∧ parseV (normalizeGravity "banana") = VAnchor.center
  ∧ titleTopLeftX (normalizeGravity "right") 300 200 10 < 0
  ∧ 200 < titleTopLeftX (normalizeGravity "left") 10 200 250 := by
  refine ⟨?_, ?_, fun gw cw qx => rfl, fun gw cw qx => rfl,
    fun gw cw qx => rfl, fun gh ch qy => rfl, fun gh ch qy => rfl,
    fun gh ch qy => rfl, ?_, ?_, ?_, ?_, by decide, by decide, ?_, ?_⟩
  · intro g gw cw px
    by_cases h1 : containsStr g "left" = true
    · simp [titleTopLeftX, parseH, h1, resolveX]
    · by_cases h2 : containsStr g "right" = true
      · simp [titleTopLeftX, parseH, h1, h2, resolveX]
      · simp [titleTopLeftX, parseH, h1, h2, resolveX]
  · intro g gh ch py
    by_cases h1 : containsStr g "top" = true
    · simp [titleTopLeftY, parseV, h1, resolveY]
    · by_cases h2 : containsStr g "bottom" = true
      · simp [titleTopLeftY, parseV, h1, h2, resolveY]
      · simp [titleTopLeftY, parseV, h1, h2, resolveY]
  · simp +decide [titleTopLeftX]
    norm_num
  · simp +decide [titleTopLeftY]
    norm_num
  · simp +decide [titleTopLeftX]
    norm_num
  · simp +decide [titleTopLeftY]
    norm_num
  · simp +decide [titleTopLeftX]
    norm_num
  · simp +decide [titleTopLeftX]

/-- C4 counterexample: the claim says every shortest bracketed substring
is deleted, but the regex dot does not cross newlines, so `"[a\nb]"` is
left untouched by the code while the claim's reading deletes it. -/
theorem C4_counterexample :
    remove_tags "[a\nb]" = "[a\nb]" ∧ specRemoveTags "[a\nb]" = "" := by
  decide

/-- C4 (amended): tag removal deletes each shortest bracketed substring
opened by `[`, `(` or `<` and closed by `]`, `)` or `>` with no newline
between opener and closer, then collapses runs of spaces and trims
surrounding whitespace; unbalanced brackets (no reachable closer) are
left in place: the stated examples hold, the final trim uses Python's
full whitespace set (here a trailing file separator 0x1C is stripped),
and a string with no closing bracket and no whitespace is returned
unchanged. -/
theorem C4_remove_tags :
    remove_tags "My Title [HD] (2020)" = "My Title"
  ∧ remove_tags "<tag>Mixed[x](y)  spacing" = "Mixed spacing"
  ∧ remove_tags "[a[b]" = ""
  ∧ remove_tags "[x)" = ""
  ∧ remove_tags "x [ab] y" = "x y"
  ∧ remove_tags "x [a\nb] y" = "x [a\nb] y"
  ∧ remove_tags "a\x1c" = "a"
  ∧ (∀ s : String,
      (∀ c ∈ s.toList, isCloser c = false ∧ pyIsSpace c = false) →
      remove_tags s = s) := by
  refine ⟨by decide, by decide, by decide, by decide, by decide, by decide,
    by decide, ?_⟩
  intro s h
  cases s with
  | mk data =>
    have hclose : ∀ c ∈ data, isCloser c = false := fun c hc => (h c hc).1
    have hspace : ∀ c ∈ data, pyIsSpace c = false := fun c hc => (h c hc).2
    have hspace0 : ∀ c ∈ data, (c == ' ') = false := by
      intro c hc
      have h32 := hspace c hc
      simp [pyIsSpace] at h32
      simp only [beq_eq_false_iff_ne, ne_eq]
      intro hcc
      rw [hcc] at h32
      exact h32.1 rfl
    show remove_tags (String.mk data) = String.mk data
    unfold remove_tags stripTags
    have htl : (String.mk data).toList = data := rfl
    rw [htl, stripTagsF_id _ _ hclose, collapseSpaces_id _ hspace0,
      pyStrip_id hspace]

/-- C4 witness: the unbalanced-bracket clause at a concrete input. -/
theorem C4_remove_tags_witness : remove_tags "a[b" = "a[b" :=
  C4_remove_tags.2.2.2.2.2.2.2 "a[b" (by decide)

/-- C5 counterexample: the claim says the gravity string is normalized
with all whitespace removed, but the code removes only space characters
(then strips the ends), so an interior tab in `"le\tft"` survives and the
horizontal anchor falls back to center instead of left. -/
theorem C5_counterexample :
    normalizeGravity "le\tft" = "le\tft"
  ∧ claimNormalize "le\tft" = "left"
  ∧ parseH (normalizeGravity "le\tft") = HAnchor.center
  ∧ parseH (claimNormalize "le\tft") = HAnchor.left := by
  decide

/-- C5 (amended): the parser normalizes the gravity string to lowercase
with all space characters removed and leading/trailing whitespace
trimmed, then picks the horizontal anchor by substring membership testing
"left" before "right" (first match wins; neither present gives center)
and independently the vertical anchor testing "top" before "bottom"
(neither present gives center). -/
theorem C5_gravity_parsing : ∀ g : String,
    normalizeGravity g =
      String.mk (pyStrip
        ((g.toList.map Char.toLower).filter (fun c => !(c == ' '))))
  ∧ (containsStr (normalizeGravity g) "left" = true →
      parseH (normalizeGravity g) = HAnchor.left)
  ∧ (containsStr (normalizeGravity g) "left" = false →
      containsStr (normalizeGravity g) "right" = true →
      parseH (normalizeGravity g) = HAnchor.right)
  ∧ (containsStr (normalizeGravity g) "left" = false →
      containsStr (normalizeGravity g) "right" = false →
      parseH (normalizeGravity g) = HAnchor.center)
  ∧ (containsStr (normalizeGravity g) "top" = true →
      parseV (normalizeGravity g) = VAnchor.top)
  ∧ (containsStr (normalizeGravity g) "top" = false →
      containsStr (normalizeGravity g) "bottom" = true →
      parseV (normalizeGravity g) = VAnchor.bottom)
  ∧ (containsStr (normalizeGravity g) "top" = false →
      containsStr (normalizeGravity g) "bottom" = false →
      parseV (normalizeGravity g) = VAnchor.center) := by
  intro g
  refine ⟨rfl, ?_, ?_, ?_, ?_, ?_, ?_⟩
  · intro h1; simp [parseH, h1]
  · intro h1 h2; simp [parseH, h1, h2]
  · intro h1 h2; simp [parseH, h1, h2]
  · intro h1; simp [parseV, h1]
  · intro h1 h2; simp [parseV, h1, h2]
  · intro h1 h2; simp [parseV, h1, h2]

/-- C5 witness: the parsing clauses at a concrete gravity string. -/
theorem C5_gravity_parsing_witness :
    parseH (normalizeGravity "TOP left") = HAnchor.left :=
  (C5_gravity_parsing "TOP left").2.1 (by decide)

/-- Blending against a fully transparent pixel returns the background
channel exactly. -/
theorem blendChan_zero (bg src : ℕ) : blendChan bg src 0 = bg := by
  unfold blendChan
  have h : ((bg : ℚ) * (255 - ((0 : ℕ) : ℚ)) + (src : ℚ) * ((0 : ℕ) : ℚ)) / 255
      = (bg : ℚ) := by
    push_cast
    field_simp
  rw [h, round_natCast]
  exact Int.toNat_natCast bg

/-- Blending against a fully opaque pixel returns the source channel
exactly. -/
theorem blendChan_full (bg src : ℕ) : blendChan bg src 255 = src := by
  unfold blendChan
  have h : ((bg : ℚ) * (255 - ((255 : ℕ) : ℚ)) + (src : ℚ) * ((255 : ℕ) : ℚ)) / 255
      = (src : ℚ) := by
    push_cast
    field_simp
  rw [h, round_natCast]
  exact Int.toNat_natCast src

/-- C2: the alpha flattener returns an RGB image of identical width and
height; where the source alpha is 0 the output pixel is exactly the
background color (default opaque white), where it is 255 the output is
exactly the source RGB, and in general each output channel is
`round(background * (1 - a/255) + source * (a/255))`. -/
theorem C2_alpha_flatten : ∀ (image : Image) (color : Color3) (u v : ℕ),
    (pure_pil_alpha_to_color_v2 image color).mode = PixMode.RGB
  ∧ (pure_pil_alpha_to_color_v2 image color).width = image.width
  ∧ (pure_pil_alpha_to_color_v2 image color).height = image.height
  ∧ defaultFlattenColor = ⟨255, 255, 255⟩
  ∧ ((image.px u v).a = 0 →
      (pure_pil_alpha_to_color_v2 image color).px u v =
        ⟨color.r, color.g, color.b, 255⟩)
  ∧ ((image.px u v).a = 255 →
      (pure_pil_alpha_to_color_v2 image color).px u v =
        ⟨(image.px u v).r, (image.px u v).g, (image.px u v).b, 255⟩)
  ∧ (pure_pil_alpha_to_color_v2 image color).px u v =
      ⟨blendChan color.r (image.px u v).r (image.px u v).a,
        blendChan color.g (image.px u v).g (image.px u v).a,
        blendChan color.b (image.px u v).b (image.px u v).a, 255⟩ := by
  intro image color u v
  refine ⟨rfl, rfl, rfl, rfl, ?_, ?_, rfl⟩
  · intro h
    simp [pure_pil_alpha_to_color_v2, h, blendChan_zero]
  · intro h
    simp [pure_pil_alpha_to_color_v2, h, blendChan_full]

/-- C2 witness: flattening the test image over white gives white at the
transparent pixel and the source RGB at the opaque pixel. -/
theorem C2_alpha_flatten_witness :
    (pure_pil_alpha_to_color_v2 imgAlphaTest ⟨255, 255, 255⟩).px 1 0 =
      ⟨255, 255, 255, 255⟩
  ∧ (pure_pil_alpha_to_color_v2 imgAlphaTest ⟨255, 255, 255⟩).px 0 0 =
      ⟨10, 20, 30, 255⟩ :=
  ⟨(C2_alpha_flatten imgAlphaTest ⟨255, 255, 255⟩ 1 0).2.2.2.2.1 rfl,
   (C2_alpha_flatten imgAlphaTest ⟨255, 255, 255⟩ 0 0).2.2.2.2.2.1 rfl⟩

/-- C3: the canvas fitter returns an image of exactly the requested
`(width, height)` for every positive source and target size, produced by
resizing a center crop of the source: the crop box has the target aspect
ratio, is centered on both axes, and lies within the source (upscaling is
permitted — nothing constrains the source to be at least the target
size). -/
theorem C3_resize_fit : ∀ (sample : Sampler) (img : Image) (w h : ℕ) (b : Box),
    0 < w → 0 < h → 0 < img.width → 0 < img.height →
    b = fitBox img.width img.height w h →
    (resize_image sample img w h).width = w
  ∧ (resize_image sample img w h).height = h
  ∧ resize_image sample img w h = imageResizeBox sample img b w h
  ∧ (b.right - b.left) * (h : ℚ) = (b.bottom - b.top) * (w : ℚ)
  ∧ b.left = ((img.width : ℚ) - (b.right - b.left)) / 2
  ∧ b.top = ((img.height : ℚ) - (b.bottom - b.top)) / 2
  ∧ 0 ≤ b.left ∧ b.right ≤ (img.width : ℚ)
  ∧ 0 ≤ b.top ∧ b.bottom ≤ (img.height : ℚ)
  ∧ b.left ≤ b.right ∧ b.top ≤ b.bottom := by
  intro sample img w h b hw hh hW hH hb
  have hwq : (0 : ℚ) < (w : ℚ) := by exact_mod_cast hw
  have hhq : (0 : ℚ) < (h : ℚ) := by exact_mod_cast hh
  have hWq : (0 : ℚ) < (img.width : ℚ) := by exact_mod_cast hW
  have hHq : (0 : ℚ) < (img.height : ℚ) := by exact_mod_cast hH
  refine ⟨rfl, rfl, ?_, ?_⟩
  · rw [hb]; rfl
  subst hb
  unfold fitBox
  by_cases hcase : ((w : ℚ) / (h : ℚ)) ≤ (img.width : ℚ) / (img.height : ℚ)
  · rw [if_pos hcase]
    have hcropnn : (0 : ℚ) ≤ (w : ℚ) / (h : ℚ) * (img.height : ℚ) :=
      mul_nonneg (div_nonneg hwq.le hhq.le) hHq.le
    have hcrople : (w : ℚ) / (h : ℚ) * (img.height : ℚ) ≤ (img.width : ℚ) := by
      have h1 := mul_le_mul_of_nonneg_right hcase hHq.le
      rwa [div_mul_cancel₀ _ (ne_of_gt hHq)] at h1
    refine ⟨?_, by ring, by ring, by linarith, by linarith, by linarith,
      by linarith, by linarith, by linarith⟩
    field_simp
    ring
  · rw [if_neg hcase]
    push_neg at hcase
    have hratio : (img.width : ℚ) * (h : ℚ) < (w : ℚ) * (img.height : ℚ) := by
      rw [div_lt_div_iff₀ hHq hhq] at hcase
      linarith
    have hcropH : (img.width : ℚ) / ((w : ℚ) / (h : ℚ))
        = (img.width : ℚ) * (h : ℚ) / (w : ℚ) := by
      field_simp
    have hcropnn : (0 : ℚ) ≤ (img.width : ℚ) / ((w : ℚ) / (h : ℚ)) := by
      rw [hcropH]
      exact div_nonneg (mul_nonneg hWq.le hhq.le) hwq.le
    have hcrople : (img.width : ℚ) / ((w : ℚ) / (h : ℚ)) ≤ (img.height : ℚ) := by
      rw [hcropH, div_le_iff₀ hwq]
      linarith
    refine ⟨?_, by ring, by ring, by linarith, by linarith, by linarith,
      by linarith, by linarith, by linarith⟩
    rw [hcropH]
    field_simp
    ring

/-- C3 witness: fitting the 4x2 source to 2x2 yields a 2x2 image. -/
theorem C3_resize_fit_witness :
    (resize_image constSampler imgFitTest 2 2).width = 2
  ∧ (resize_image constSampler imgFitTest 2 2).height = 2 := by
  have h := C3_resize_fit constSampler imgFitTest 2 2
    (fitBox imgFitTest.width imgFitTest.height 2 2)
    (by decide) (by decide) (by decide) (by decide) rfl
  exact ⟨h.1, h.2.1⟩

/-- Width is unchanged by glyph drawing. -/
theorem drawChars_width : ∀ (cs : List Char) (font : FontMetrics) (img : Image)
    (pos : ℚ × ℚ) (fill : Color4),
    (drawChars font img pos fill cs).width = img.width := by
  intro cs
  induction cs with
  | nil => intro font img pos fill; rfl
  | cons c cs ih =>
    intro font img pos fill
    simp [drawChars, ih, drawChar]

/-- Height is unchanged by glyph drawing. -/
theorem drawChars_height : ∀ (cs : List Char) (font : FontMetrics) (img : Image)
    (pos : ℚ × ℚ) (fill : Color4),
    (drawChars font img pos fill cs).height = img.height := by
  intro cs
  induction cs with
  | nil => intro font img pos fill; rfl
  | cons c cs ih =>
    intro font img pos fill
    simp [drawChars, ih, drawChar]

/-- A pixel covered by no glyph of the drawn text keeps its value. -/
theorem drawChars_px_not_covered : ∀ (cs : List Char) (font : FontMetrics)
    (img : Image) (pos : ℚ × ℚ) (fill : Color4) (u v : ℕ),
    coversChars font pos u v cs = false →
    (drawChars font img pos fill cs).px u v = img.px u v := by
  intro cs
  induction cs with
  | nil => intro font img pos fill u v _; rfl
  | cons c cs ih =>
    intro font img pos fill u v h
    simp only [coversChars, Bool.or_eq_false_iff] at h
    rw [drawChars, ih _ _ _ _ _ _ h.2]
    simp [drawChar, h.1]

/-- An in-bounds pixel covered by some glyph of the drawn text ends with
the ink's RGB (opaque, the ink alpha being ignored on an RGB target). -/
theorem drawChars_px_covered : ∀ (cs : List Char) (font : FontMetrics)
    (img : Image) (pos : ℚ × ℚ) (fill : Color4) (u v : ℕ),
    u < img.width → v < img.height →
    coversChars font pos u v cs = true →
    (drawChars font img pos fill cs).px u v = ⟨fill.r, fill.g, fill.b, 255⟩ := by
  intro cs
  induction cs with
  | nil => intro font img pos fill u v _ _ h; simp [coversChars] at h
  | cons c cs ih =>
    intro font img pos fill u v hu hv h
    by_cases hrest :
        coversChars font (pos.1 + (font.charWidth c : ℚ), pos.2) u v cs = true
    · rw [drawChars]
      exact ih _ _ _ _ _ _ (by simp [drawChar, hu]) (by simp [drawChar, hv]) hrest
    · simp only [coversChars, Bool.or_eq_true] at h
      rcases h with hmask | h2
      · rw [drawChars,
          drawChars_px_not_covered _ _ _ _ _ _ _ (by simpa using hrest)]
        simp [drawChar, hu, hv, hmask]
      · exact absurd h2 hrest

/-- C6: the caption renderer never modifies its input image: it draws
only on a freshly allocated private copy, the returned index is that copy
(never the argument), the argument buffer — and each of its pixels — is
identical before and after the call, and the copy holds the composited
image described by the value-level `set_image_title`. -/
theorem C6_input_not_mutated : ∀ (env : FontEnv) (s : Store) (i : ℕ)
    (title gravity : String) (padding : ℤ × ℤ) (fontsize : ℕ),
    i < s.size →
    (set_image_titleS env s i title gravity padding fontsize).1.buf i = s.buf i
  ∧ (∀ u v : ℕ,
      ((set_image_titleS env s i title gravity padding fontsize).1.buf i).px u v
        = (s.buf i).px u v)
  ∧ (set_image_titleS env s i title gravity padding fontsize).2 ≠ i
  ∧ (set_image_titleS env s i title gravity padding fontsize).1.buf
      (set_image_titleS env s i title gravity padding fontsize).2
      = set_image_title env (s.buf i) title gravity padding fontsize := by
  intro env s i title gravity padding fontsize hi
  have hne : i ≠ s.size := Nat.ne_of_lt hi
  have hbuf :
      (set_image_titleS env s i title gravity padding fontsize).1.buf i
        = s.buf i := by
    simp [set_image_titleS, Store.alloc, Store.write, hne]
  refine ⟨hbuf, fun u v => by rw [hbuf], ?_, ?_⟩
  · simp [set_image_titleS, Store.alloc, Store.write]
    exact fun hcontra => hne hcontra.symm
  · simp [set_image_titleS, Store.alloc, Store.write, set_image_title, hne]

/-- C6 witness: the argument buffer of a one-image store is untouched. -/
theorem C6_input_not_mutated_witness :
    (set_image_titleS envTest storeTest 0 "t" "left" (0, 0) 12).1.buf 0
      = imgDrawTest :=
  (C6_input_not_mutated envTest storeTest 0 "t" "left" (0, 0) 12 (by decide)).1

/-- C7: when the title sanitizes to the empty string the caption renderer
draws nothing and returns a pixel-identical copy of its input, so
re-running it on its own output with an empty caption is a visual no-op;
empty, whitespace-only and tags-only titles all sanitize to empty. -/
theorem C7_empty_caption_noop :
    (∀ (env : FontEnv) (img : Image) (title gravity : String)
        (padding : ℤ × ℤ) (fontsize : ℕ),
      remove_tags title = "" →
      set_image_title env img title gravity padding fontsize = img
      ∧ ∀ u v : ℕ,
          (set_image_title env img title gravity padding fontsize).px u v
            = img.px u v)
  ∧ remove_tags "" = ""
  ∧ remove_tags "   " = ""
  ∧ remove_tags "[HD] (x)" = "" := by
  refine ⟨?_, by decide, by decide, by decide⟩
  intro env img title gravity padding fontsize h
  have heq : set_image_title env img title gravity padding fontsize = img := by
    unfold set_image_title
    rw [h]
    rfl
  exact ⟨heq, fun u v => by rw [heq]⟩

/-- C7 witness: a tags-only title leaves the test image untouched. -/
theorem C7_empty_caption_noop_witness :
    set_image_title envTest imgDrawTest "[HD] (2020)" "bottom" (5, 5) 20
      = imgDrawTest :=
  (C7_empty_caption_noop.1 envTest imgDrawTest "[HD] (2020)" "bottom" (5, 5) 20
    (by decide)).1

/-- C8: the caption is drawn in two passes in a fixed order — first a
shadow copy of the sanitized title offset by (+2, +2) with the translucent
dark fill (0, 0, 0, 127), then the primary text at the resolved
coordinates with the default opaque black ink (0, 0, 0, 255); hence every
in-bounds pixel covered by the primary text ends opaque black, and a pixel
covered by neither pass keeps its input value. -/
theorem C8_shadow_then_text : ∀ (env : FontEnv) (img : Image)
    (title gravity : String) (padding : ℤ × ℤ) (fontsize : ℕ) (u v : ℕ),
    shadowFill = ⟨0, 0, 0, 127⟩
  ∧ defaultInk = ⟨0, 0, 0, 255⟩
  ∧ set_image_title env img title gravity padding fontsize =
      drawText (env fontsize)
        (drawText (env fontsize) img
          (titleTopLeftX (normalizeGravity gravity)
              ((env fontsize).getsize (remove_tags title)).1 img.width
              padding.1 + 2,
            titleTopLeftY (normalizeGravity gravity)
              ((env fontsize).getsize (remove_tags title)).2 img.height
              padding.2 + 2)
          (remove_tags title) shadowFill)
        (titleTopLeftX (normalizeGravity gravity)
            ((env fontsize).getsize (remove_tags title)).1 img.width padding.1,
          titleTopLeftY (normalizeGravity gravity)
            ((env fontsize).getsize (remove_tags title)).2 img.height padding.2)
        (remove_tags title) defaultInk
  ∧ (u < img.width → v < img.height →
      coversText (env fontsize)
        (titleTopLeftX (normalizeGravity gravity)
            ((env fontsize).getsize (remove_tags title)).1 img.width padding.1,
          titleTopLeftY (normalizeGravity gravity)
            ((env fontsize).getsize (remove_tags title)).2 img.height padding.2)
        (remove_tags title) u v = true →
      (set_image_title env img title gravity padding fontsize).px u v
        = ⟨0, 0, 0, 255⟩)
  ∧ (coversText (env fontsize)
        (titleTopLeftX (normalizeGravity gravity)
            ((env fontsize).getsize (remove_tags title)).1 img.width padding.1,
          titleTopLeftY (normalizeGravity gravity)
            ((env fontsize).getsize (remove_tags title)).2 img.height padding.2)
        (remove_tags title) u v = false →
      coversText (env fontsize)
        (titleTopLeftX (normalizeGravity gravity)
            ((env fontsize).getsize (remove_tags title)).1 img.width
            padding.1 + 2,
          titleTopLeftY (normalizeGravity gravity)
            ((env fontsize).getsize (remove_tags title)).2 img.height
            padding.2 + 2)
        (remove_tags title) u v = false →
      (set_image_title env img title gravity padding fontsize).px u v
        = img.px u v) := by
  intro env img title gravity padding fontsize u v
  refine ⟨rfl, rfl, rfl, ?_, ?_⟩
  · intro hu hv hcov
    show (drawText (env fontsize) _ _ (remove_tags title) defaultInk).px u v = _
    unfold drawText
    rw [drawChars_px_covered _ _ _ _ _ _ _
      (by rw [drawChars_width]; exact hu)
      (by rw [drawChars_height]; exact hv) hcov]
    rfl
  · intro hcov1 hcov2
    show (drawText (env fontsize) _ _ (remove_tags title) defaultInk).px u v = _
    unfold drawText
    rw [drawChars_px_not_covered _ _ _ _ _ _ _ hcov1]
    rw [drawChars_px_not_covered _ _ _ _ _ _ _ hcov2]

/-- C8 witness: with the pen-pixel test font, the glyph pixel of an "a"
caption anchored top-left ends opaque black. -/
theorem C8_shadow_then_text_witness :
    (set_image_title envTest imgDrawTest "a" "top left" (0, 0) 12).px 0 0
      = ⟨0, 0, 0, 255⟩ := by
  apply (C8_shadow_then_text envTest imgDrawTest "a" "top left" (0, 0) 12
    0 0).2.2.2.1
  · decide
  · decide
  · have h1 : remove_tags "a" = "a" := by decide
    have h2 : normalizeGravity "top left" = "topleft" := by decide
    rw [h1, h2]
    simp +decide [coversText, coversChars, envTest, fontTest,
      titleTopLeftX, titleTopLeftY]

/-- C9 counterexample: at a concrete decode failure the claim's "typed
error surfaced to the caller" is false — `download_image` terminates the
process with exit status 1 and raises nothing to the caller. -/
theorem C9_counterexample :
    download_image envDecodeFail = DownloadOutcome.exitProcess 1
  ∧ (download_image envDecodeFail).isRaised = false
  ∧ (download_image envDecodeFail).isImage = false :=
  ⟨rfl, rfl, rfl⟩

/-- C9 (amended): a failure at the fetch or decode stage short-circuits
the rest of `download_image` — no partial image is returned and later
stages (including the caption renderer) never run — but it does so by
logging a generic message and terminating the process with exit status 1:
no typed error is surfaced to the caller, no outcome ever reaches the
caller as an exception, and a fetch failure is indistinguishable from a
decode failure in the outcome. -/
theorem C9_exit_on_failure :
    (∀ (env : DownloadEnv) (e : IOErr), env.fetch = Except.error e →
        download_image env = DownloadOutcome.exitProcess 1)
  ∧ (∀ (env : DownloadEnv) (raw : RawBytes) (e : IOErr),
        env.fetch = Except.ok raw → env.decode raw = Except.error e →
        download_image env = DownloadOutcome.exitProcess 1)
  ∧ (∀ env : DownloadEnv, (download_image env).isRaised = false)
  ∧ (∀ (env1 env2 : DownloadEnv) (e1 : IOErr) (raw : RawBytes) (e2 : IOErr),
        env1.fetch = Except.error e1 →
        env2.fetch = Except.ok raw → env2.decode raw = Except.error e2 →
        download_image env1 = download_image env2) := by
  refine ⟨?_, ?_, ?_, ?_⟩
  · intro env e h
    simp [download_image, h]
  · intro env raw e h1 h2
    simp [download_image, h1, h2]
  · intro env
    cases hf : env.fetch with
    | error e => simp [download_image, hf, DownloadOutcome.isRaised]
    | ok raw =>
      cases hd : env.decode raw with
      | error e => simp [download_image, hf, hd, DownloadOutcome.isRaised]
      | ok decoded =>
        simp [download_image, hf, hd, DownloadOutcome.isRaised,
          Image.convertRGB]
  · intro env1 env2 e1 raw e2 h1 h2 h3
    simp [download_image, h1, h2, h3]

/-- C9 witness: a concrete fetch failure exits with status 1. -/
theorem C9_exit_on_failure_witness :
    download_image envFetchFail = DownloadOutcome.exitProcess 1 :=
  C9_exit_on_failure.1 envFetchFail ⟨"connection error"⟩ rfl

/-- C10: `download_image` converts to RGB before the `mode == "RGBA"`
check, so the check is always false and the alpha-compositing branch is
unreachable: every successful call returns exactly the converted image,
whose mode is RGB and whose RGB channels are the source's unchanged —
transparency is discarded by the conversion (at the transparent red test
pixel the conversion keeps red while compositing over the default white
background would give white). -/
theorem C10_dead_alpha_branch :
    (∀ img : Image, (Image.convertRGB img).mode = PixMode.RGB)
  ∧ (∀ img : Image, ¬(Image.convertRGB img).mode = PixMode.RGBA)
  ∧ (∀ (env : DownloadEnv) (raw : RawBytes) (decoded : Image),
      env.fetch = Except.ok raw → env.decode raw = Except.ok decoded →
      download_image env = DownloadOutcome.ok (Image.convertRGB decoded))
  ∧ (∀ (img : Image) (u v : ℕ),
      ((Image.convertRGB img).px u v).r = (img.px u v).r
      ∧ ((Image.convertRGB img).px u v).g = (img.px u v).g
      ∧ ((Image.convertRGB img).px u v).b = (img.px u v).b
      ∧ ((Image.convertRGB img).px u v).a = 255)
  ∧ (Image.convertRGB imgRedTransparent).px 0 0 = ⟨200, 0, 0, 255⟩
  ∧ (pure_pil_alpha_to_color_v2 imgRedTransparent defaultFlattenColor).px 0 0
      = ⟨255, 255, 255, 255⟩ := by
  refine ⟨fun img => rfl, fun img => by simp [Image.convertRGB], ?_,
    fun img u v => ⟨rfl, rfl, rfl, rfl⟩, rfl, ?_⟩
  · intro env raw decoded h1 h2
    simp [download_image, h1, h2, Image.convertRGB]
  · simp [pure_pil_alpha_to_color_v2, imgRedTransparent, defaultFlattenColor,
      blendChan_zero]

/-- C10 witness: the successful test environment returns the converted
image directly (the flatten branch is skipped). -/
theorem C10_dead_alpha_branch_witness :
    download_image envOkTest
      = DownloadOutcome.ok (Image.convertRGB imgRedTransparent) :=
  C10_dead_alpha_branch.2.2.1 envOkTest [] imgRedTransparent rfl rfl

end WPReddit
